import Mathlib

/-!
Verification of the MixedRemoteViewCompositor shared core against its
natural-language specification.

The development shallowly embeds the three components the claims are about:

* `LoggerImpl` (Source/Shared/Common/Logger.cpp): the coalescing log sink,
  modelled as an explicit state machine (`LoggerState`) driven by events
  (`Ev`): `Log` calls, writer attachment (`OnFileOpened` tail), the
  `StoreAsync` completion handler, and the `FlushAsync` completion handler.
  Platform results (WriteBytes, StoreAsync, put_Completed, GetResults,
  FlushAsync) are supplied as explicit `HRes` oracles carried by the events.
* the async primitives (Source/Shared/Common/AsyncOperations.h):
  `AsyncCompleteImpl` over the WRL `AsyncBase` state machine, and the
  `AsyncEventDelegate::SyncWait` blocking bridge.
* `CaptureEngineImpl` (Source/Shared/Media/CaptureEngine.cpp): `InitAsync`
  (device resolution, settings build-up, profile selection, platform
  initialize, completion handler) and `StartAsync` (profile construction,
  MRC effect attachment, event subscription, start call), with every
  fallible platform step given an `HRes` oracle in an environment record.

Machine integers do not overflow on any modelled path, so widths, heights
and counters are `Nat`; the `double` frame rate is modelled on a fixed
milli-frame grid (`frameRateMilli : Nat`), on which C's `round` (half away
from zero, here on nonnegative values) is exactly `(m + 500) / 1000`.
-/

/-- HRESULT, reduced to the distinctions the code makes: `sOk` is the only
success value the modelled paths produce; failures keep their identity via
a code so that "fails with the originating error" is expressible. -/
inductive HRes where
  | sOk
  | eInvalidArg
  | ePointer
  | eUnexpected
  | eFail (code : Nat)
deriving DecidableEq, Repr

/-- `SUCCEEDED(hr)` for the modelled values. -/
def HRes.succeeded : HRes → Bool
  | .sOk => true
  | _ => false

/-! ## Logger (Source/Shared/Common/Logger.cpp) -/

/-- Messages are abstract tokens; serialization (`WCharConverter.to_bytes`)
is injective and per-message, so the byte stream handed to the store is
tracked as the sequence of message tokens written. -/
abbrev Msg := Nat

/-- State of one `LoggerImpl` together with the platform objects it drives:
`logMessages`/`savingToFile` are the members of the C++ class,
`writerAttached` models `m_spDataWriter != nullptr`, `writerBuf` the bytes
buffered inside the `DataWriter` but not yet captured by a `StoreAsync`,
`storeOps`/`flushOps` count pending `StoreAsync`/`FlushAsync` operations
that have a completion handler registered, and `stored` the bytes handed
to the backing store. -/
structure LoggerState where
  logMessages : List Msg
  savingToFile : Bool
  writerAttached : Bool
  writerBuf : List Msg
  storeOps : Nat
  flushOps : Nat
  stored : List Msg
deriving DecidableEq, Repr

/-- The freshly constructed logger (`LoggerImpl::LoggerImpl`). -/
def initLogger : LoggerState :=
  { logMessages := [], savingToFile := false, writerAttached := false
  , writerBuf := [], storeOps := 0, flushOps := 0, stored := [] }

/-- The `for each` loop of `FlushMessageQueue` (Logger.cpp:174-182):
`hr` is overwritten by every `WriteBytes` call, bytes of a successful call
are appended; the pair returned is (bytes appended to the writer, the
value `hr` holds after the loop, i.e. the last call's result). Missing
oracle entries default to success. -/
def writeLoop : List Msg → List HRes → List Msg × HRes
  | [], _ => ([], .sOk)
  | [m], rs =>
      (if (rs.headD .sOk).succeeded then [m] else [], rs.headD .sOk)
  | m :: ms, rs =>
      let r := rs.headD .sOk
      let rest := writeLoop ms rs.tail
      ((if r.succeeded then m :: rest.1 else rest.1), rest.2)

/-- `LoggerImpl::FlushMessageQueue` (Logger.cpp:163-228), called with the
lock held. `wrs` are the per-message `WriteBytes` results, `stIssue` the
result of issuing `StoreAsync`, `ptRes` the result of `put_Completed` on
the store operation. The swap (165-166) empties `m_logMessages`
unconditionally; an empty batch clears `m_savingToFile` (169); a failed
last `WriteBytes` (184-185) or a failed `StoreAsync` issue (191-192)
returns that error with the flag untouched; otherwise the writer buffer is
handed to the store, `m_savingToFile` is set (225) and the handler
registration result is returned (227). -/
def flushMQ (wrs : List HRes) (stIssue ptRes : HRes) (s : LoggerState) :
    LoggerState × HRes :=
  let messages := s.logMessages
  let s0 := { s with logMessages := [] }
  if messages.isEmpty then
    ({ s0 with savingToFile := false }, .sOk)
  else
    let wl := writeLoop messages wrs
    let s1 := { s0 with writerBuf := s0.writerBuf ++ wl.1 }
    if wl.2.succeeded = false then (s1, wl.2)
    else if stIssue.succeeded = false then (s1, stIssue)
    else
      let s2 := { s1 with stored := s1.stored ++ s1.writerBuf
                        , writerBuf := []
                        , savingToFile := true }
      if ptRes.succeeded then ({ s2 with storeOps := s2.storeOps + 1 }, .sOk)
      else (s2, ptRes)

/-- `LoggerImpl::Log` (Logger.cpp:145-161): null check, append under the
lock, and a synchronous `FlushMessageQueue` only when a writer is attached
and no save is in flight. -/
def logCall (msg : Option Msg) (wrs : List HRes) (stIssue ptRes : HRes)
    (s : LoggerState) : LoggerState × HRes :=
  match msg with
  | none => (s, .eInvalidArg)
  | some m =>
    let s1 := { s with logMessages := s.logMessages ++ [m] }
    if s1.writerAttached = false || s1.savingToFile then (s1, .sOk)
    else flushMQ wrs stIssue ptRes s1

/-- Tail of `LoggerImpl::OnFileOpened` (Logger.cpp:137-142): attach the
writer and output stream under the lock, then flush. -/
def attachWriter (wrs : List HRes) (stIssue ptRes : HRes)
    (s : LoggerState) : LoggerState × HRes :=
  flushMQ wrs stIssue ptRes { s with writerAttached := true }

/-- The `StoreAsync` completion handler (Logger.cpp:194-223): on a
successful `GetResults` it issues `FlushAsync` and registers the flush
continuation; any failure makes it return without scheduling anything
(the handler itself always returns `S_OK` to the platform). -/
def storeComplete (getRes flIssue ptRes : HRes) (s : LoggerState) :
    LoggerState :=
  let s1 := { s with storeOps := s.storeOps - 1 }
  if getRes.succeeded && flIssue.succeeded && ptRes.succeeded then
    { s1 with flushOps := s1.flushOps + 1 }
  else s1

/-- The `FlushAsync` completion handler `cbFlush` (Logger.cpp:204-212):
take the lock and run `FlushMessageQueue` again; its result goes back to
the platform and is discarded. -/
def flushComplete (wrs : List HRes) (stIssue ptRes : HRes)
    (s : LoggerState) : LoggerState :=
  (flushMQ wrs stIssue ptRes { s with flushOps := s.flushOps - 1 }).1

/-- One interleaving event on a logger: a `Log` call, the writer
attachment, or the arrival of a store / flush completion, each carrying
the platform results its handler consumes. -/
inductive Ev where
  | log (msg : Option Msg) (wrs : List HRes) (stIssue ptRes : HRes)
  | attach (wrs : List HRes) (stIssue ptRes : HRes)
  | storeDone (getRes flIssue ptRes : HRes)
  | flushDone (wrs : List HRes) (stIssue ptRes : HRes)
deriving DecidableEq, Repr

/-- Event semantics. Attachment happens at most once (the file-open chain
runs once); a completion can only arrive for a pending operation. -/
def stepEv (e : Ev) (s : LoggerState) : LoggerState :=
  match e with
  | .log m wrs st pt => (logCall m wrs st pt s).1
  | .attach wrs st pt =>
      if s.writerAttached then s else (attachWriter wrs st pt s).1
  | .storeDone g f pt => if s.storeOps = 0 then s else storeComplete g f pt s
  | .flushDone wrs st pt =>
      if s.flushOps = 0 then s else flushComplete wrs st pt s

/-- Run a list of events from a state, first event first. -/
def runFrom (s : LoggerState) : List Ev → LoggerState
  | [] => s
  | e :: tr => runFrom (stepEv e s) tr

/-- Run a trace from the freshly constructed logger. -/
def runLogger (tr : List Ev) : LoggerState := runFrom initLogger tr

/-- The messages appended by a trace, in append order. -/
def loggedOf : Ev → List Msg
  | .log (some m) _ _ _ => [m]
  | _ => []

/-- All messages appended by a trace. -/
def logged : List Ev → List Msg
  | [] => []
  | e :: tr => loggedOf e ++ logged tr

/-- An event is clean when the platform steps it carries all succeed and
the message (if any) is non-null. -/
def Ev.clean : Ev → Bool
  | .log m wrs st pt =>
      m.isSome && wrs.all HRes.succeeded && st.succeeded && pt.succeeded
  | .attach wrs st pt => wrs.all HRes.succeeded && st.succeeded && pt.succeeded
  | .storeDone g f pt => g.succeeded && f.succeeded && pt.succeeded
  | .flushDone wrs st pt => wrs.all HRes.succeeded && st.succeeded && pt.succeeded

/-- Everywhere a logged message can currently live, in stream order: bytes
already handed to the store, bytes buffered in the writer, then the
pending queue. -/
def accounted (s : LoggerState) : List Msg :=
  s.stored ++ s.writerBuf ++ s.logMessages

/-! ## Async primitives (Source/Shared/Common/AsyncOperations.h) -/

/-- Modelled from the spec: the WRL `AsyncBase` state machine underlying
`AsyncCompleteImpl` is platform library code not present in src/; per the
spec's AsyncTask contract, the outcome transitions exactly once from
pending (`started`) to a terminal state, and a registered completion
handler is invoked exactly once once a terminal state is reached. -/
inductive TaskState where
  | started
  | completed
  | errorState (hr : HRes)
deriving DecidableEq, Repr

/-- Modelled from the spec: an `AsyncCompleteImpl` task after
`AsyncBase::Start()`: its outcome, whether a completion handler was
registered (`put_Completed`), and whether that handler has been fired. -/
structure AsyncTask where
  state : TaskState
  handlerRegistered : Bool
  handlerFired : Bool
deriving DecidableEq, Repr

/-- Modelled from the spec: `AsyncBase::TryTransitionToError` moves a
still-pending task to the error state and is a no-op otherwise. -/
def tryTransitionToError (hr : HRes) (t : AsyncTask) : AsyncTask :=
  if t.state = .started then { t with state := .errorState hr } else t

/-- Modelled from the spec: `AsyncBase::FireCompletion` invokes the
registered completion handler once the task is terminal, at most once. -/
def fireCompletion (t : AsyncTask) : AsyncTask :=
  if t.state ≠ .started ∧ t.handlerRegistered = true ∧ t.handlerFired = false
  then { t with handlerFired := true }
  else t

/-- `AsyncCompleteImpl::Completed` (AsyncOperations.h:69-79): a failed
`hr` first tries the transition to error, then completion is fired. -/
def completedFn (hr : HRes) (t : AsyncTask) : AsyncTask :=
  fireCompletion (if hr.succeeded then t else tryTransitionToError hr t)

/-- `AsyncCompleteImpl::~AsyncCompleteImpl` (AsyncOperations.h:35-38):
the destructor invokes `Completed(E_UNEXPECTED)`. -/
def destructorRun (t : AsyncTask) : AsyncTask := completedFn .eUnexpected t

/-- Outcome of `WaitForSingleObjectEx` on the completion event. -/
inductive WaitOutcome where
  | object0
  | ioCompletion
  | timedOut
  | waitFailed
deriving DecidableEq, Repr

/-- `HRESULT_FROM_WIN32`: Win32 error 0 maps to `S_OK`. -/
def hresultFromWin32 (e : Nat) : HRes := if e = 0 then .sOk else .eFail e

/-- `AsyncEventDelegate::SyncWait` (AsyncOperations.h:211-224): register
the delegate, perform a single alertable wait, return `S_OK` when the
wait reports `WAIT_OBJECT_0` or `WAIT_IO_COMPLETION`, and otherwise
return `HRESULT_FROM_WIN32(GetLastError())`. `lastError` is the thread's
last-error value at that point. -/
def syncWaitBridge (putRes : HRes) (w : WaitOutcome) (lastError : Nat) : HRes :=
  if putRes.succeeded = false then putRes
  else if w = .ioCompletion ∨ w = .object0 then .sOk
  else hresultFromWin32 lastError

/-! ## Capture engine (Source/Shared/Media/CaptureEngine.cpp) -/

/-- A supported record media description of a video profile: width,
height, and the `double` frame rate. Lean has no floating point, so the
(nonnegative) frame rate is modelled on a fixed milli-frame grid:
`frameRateMilli = 29970` stands for 29.97 fps. -/
structure MediaDesc where
  width : Nat
  height : Nat
  frameRateMilli : Nat
deriving DecidableEq, Repr

/-- A video profile together with its `SupportedRecordMediaDescription`
list, in enumeration order. -/
structure VideoProfile where
  descs : List MediaDesc
deriving DecidableEq, Repr

/-- C `round` (half away from zero) on the nonnegative milli-frame grid:
`round(m / 1000) = ⌊m / 1000 + 1/2⌋ = (m + 500) / 1000` in `Nat`
division; exact on this grid. -/
def roundMilli (m : Nat) : Nat := (m + 500) / 1000

/-- The selection predicate of CaptureEngine.cpp:288:
`width >= 1280 && height >= 720 && round(frameRate) == 30`. -/
def descMatches (d : MediaDesc) : Bool :=
  1280 ≤ d.width && 720 ≤ d.height && roundMilli d.frameRateMilli = 30

/-- The inner description loop (CaptureEngine.cpp:272-296), with the
`captureProfileFound` guard carried as the accumulator. -/
def selectDescs (p : VideoProfile)
    (acc : Option (VideoProfile × MediaDesc)) :
    Option (VideoProfile × MediaDesc) :=
  p.descs.foldl
    (fun a d =>
      match a with
      | some x => some x
      | none => if descMatches d then some (p, d) else none)
    acc

/-- The profile/description double loop of `InitAsync`
(CaptureEngine.cpp:262-297). -/
def selectProfile (profiles : List VideoProfile) :
    Option (VideoProfile × MediaDesc) :=
  profiles.foldl (fun a p => selectDescs p a) none

/-- The platform media-capture object as `InitAsync`'s handler stores it:
the record-stream dimensions it will report to `StartAsync`, and counters
for the `Failed` / `RecordLimitationExceeded` handlers registered on it. -/
structure MCap where
  recordWidth : Nat
  recordHeight : Nat
  failedHandlerCount : Nat
  recordLimitHandlerCount : Nat
deriving DecidableEq, Repr

/-- The fields of `CaptureEngineImpl` the claims observe
(CaptureEngine.h members, initialized in the constructor at
CaptureEngine.cpp:45-55). -/
structure CaptureState where
  isInitialized : Bool
  enableAudio : Bool
  enableMrc : Bool
  videoEffectAdded : Bool
  audioEffectAdded : Bool
  captureStarted : Bool
  mediaCapture : Option MCap
  spatialSet : Bool
  networkSinkSet : Bool
deriving DecidableEq, Repr

/-- `CaptureEngineImpl::CaptureEngineImpl` (CaptureEngine.cpp:45-55).
Note the constructor initializes `_isInitialized(true)`. -/
def initCaptureState : CaptureState :=
  { isInitialized := true, enableAudio := false, enableMrc := false
  , videoEffectAdded := false, audioEffectAdded := false
  , captureStarted := false, mediaCapture := none
  , spatialSet := false, networkSinkSet := false }

/-- The `MediaCaptureInitializationSettings` fields `InitAsync` fills in:
the streaming mode and, when the loop found a match, the record/preview
description and the profile (CaptureEngine.cpp:237-292). -/
structure InitSettings where
  audioEnabled : Bool
  selectedDesc : Option MediaDesc
  selectedProfile : Option VideoProfile
deriving DecidableEq, Repr

/-- Results of the fallible platform steps of `InitAsync`, one oracle per
`IFR`-guarded step (consecutive steps with no intervening state effect
share one oracle, carrying the first failure). -/
structure InitEnv where
  hrFindVideo : HRes
  hrFindAudio : HRes
  hrSettings : HRes
  hrStatics : HRes
  hrProfiles : HRes
  profiles : List VideoProfile
  hrApplyProfile : HRes
  hrActivate : HRes
  hrInitCall : HRes
  hrMakeAction : HRes
  hrPutCompleted : HRes
deriving DecidableEq, Repr

/-- What `InitAsync` hands back: either an `IFR` early return with the
originating error and no composed action, or success with the settings
that were passed to `InitializeWithSettingsAsync` and a composed action
whose handler will run on platform completion. -/
inductive InitOutcome where
  | syncErr (hr : HRes)
  | pending (settings : InitSettings)
deriving DecidableEq, Repr

/-- The `IFR` chain of `CaptureEngineImpl::InitAsync`
(CaptureEngine.cpp:218-348): every branch decision depends only on the
arguments and the platform results, never on the engine's members, so the
outcome factors out of the state. The first failing step's error is
returned; on success the settings passed to
`InitializeWithSettingsAsync` are carried in `pending`. Note the
description/profile application (290-292, oracle `hrApplyProfile`) only
runs when the loop found a match. -/
def initAsyncOutcome (enableAudio : Bool) (env : InitEnv) : InitOutcome :=
  if env.hrFindVideo.succeeded = false then .syncErr env.hrFindVideo
  else if enableAudio && env.hrFindAudio.succeeded = false then
    .syncErr env.hrFindAudio
  else if env.hrSettings.succeeded = false then .syncErr env.hrSettings
  else if env.hrStatics.succeeded = false then .syncErr env.hrStatics
  else if env.hrProfiles.succeeded = false then .syncErr env.hrProfiles
  else
    let sel := selectProfile env.profiles
    if sel.isSome && env.hrApplyProfile.succeeded = false then
      .syncErr env.hrApplyProfile
    else if env.hrActivate.succeeded = false then .syncErr env.hrActivate
    else if env.hrInitCall.succeeded = false then .syncErr env.hrInitCall
    else if env.hrMakeAction.succeeded = false then
      .syncErr env.hrMakeAction
    else if env.hrPutCompleted.succeeded = false then
      .syncErr env.hrPutCompleted
    else .pending
      { audioEnabled := enableAudio
      , selectedDesc := sel.map Prod.snd
      , selectedProfile := sel.map Prod.fst }

/-- `CaptureEngineImpl::InitAsync` (CaptureEngine.cpp:208-349), the
synchronous part. The only member the body assigns is `_enableAudio`
(216, before the first fallible step); every `IFR` failure returns the
originating error without touching anything else (in particular
`_isInitialized` and `_mediaCapture` are untouched and `*action` is
never written), so the state part is the same on every path. -/
def initAsync (enableAudio : Bool) (env : InitEnv) (s : CaptureState) :
    CaptureState × InitOutcome :=
  ({ s with enableAudio := enableAudio }, initAsyncOutcome enableAudio env)

/-- Results and data consumed by the `InitializeWithSettingsAsync`
completion handler (CaptureEngine.cpp:312-344): the controller/hint/
stream-properties chain (`IFC` steps, 325-335), the final
`mediaCapture.As(&_mediaCapture)` (338), and the record-stream
dimensions the stored capture will report. -/
structure InitHandlerEnv where
  hrController : HRes
  hrStore : HRes
  capWidth : Nat
  capHeight : Nat
deriving DecidableEq, Repr

/-- The `InitAsync` completion handler body: on the first `IFC` failure it
jumps to `done:` without storing the capture; the returned `HRes` is the
value passed to `spInitAction->Completed(hr)` (341). -/
def initHandlerRun (henv : InitHandlerEnv) (s : CaptureState) :
    CaptureState × HRes :=
  if henv.hrController.succeeded = false then (s, henv.hrController)
  else if henv.hrStore.succeeded = false then (s, henv.hrStore)
  else
    ({ s with mediaCapture :=
          some { recordWidth := henv.capWidth, recordHeight := henv.capHeight
               , failedHandlerCount := 0, recordLimitHandlerCount := 0 } }
    , .sOk)

/-- The output encoding profile `StartAsync` builds
(CaptureEngine.cpp:386-405): `CreateMp4(HD720p)`, audio track dropped when
audio is disabled (392-395), container stripped (396), video dimensions
overwritten with the negotiated capture dimensions (399-402). -/
structure EncProfile where
  width : Nat
  height : Nat
  hasAudio : Bool
  hasContainer : Bool
deriving DecidableEq, Repr

/-- Results of the fallible platform steps of `StartAsync`, one oracle per
`IFR`-guarded step (consecutive steps without intervening state effects
share one oracle, carrying the first failure). -/
structure StartEnv where
  hrGetProps : HRes
  hrProfileStatics : HRes
  hrProfileBuild : HRes
  hrMakeSink : HRes
  hrCastCapture4 : HRes
  hrVideoEffectSetup : HRes
  hrAddVideoEffect : HRes
  hrWaitVideo : HRes
  hrVideoResults : HRes
  hrAudioEffectSetup : HRes
  hrAddAudioEffect : HRes
  hrWaitAudio : HRes
  hrAudioResults : HRes
  hrSinkCast : HRes
  hrAddFailed : HRes
  hrAddRecordLimit : HRes
  hrMakeAction : HRes
  hrStartRecord : HRes
  hrPutCompleted : HRes
deriving DecidableEq, Repr

/-- A `StartEnv` in which every platform step succeeds. -/
def startEnvOk : StartEnv :=
  { hrGetProps := .sOk, hrProfileStatics := .sOk, hrProfileBuild := .sOk
  , hrMakeSink := .sOk, hrCastCapture4 := .sOk, hrVideoEffectSetup := .sOk
  , hrAddVideoEffect := .sOk, hrWaitVideo := .sOk, hrVideoResults := .sOk
  , hrAudioEffectSetup := .sOk, hrAddAudioEffect := .sOk
  , hrWaitAudio := .sOk, hrAudioResults := .sOk, hrSinkCast := .sOk
  , hrAddFailed := .sOk, hrAddRecordLimit := .sOk, hrMakeAction := .sOk
  , hrStartRecord := .sOk, hrPutCompleted := .sOk }

/-- What `StartAsync` hands back. `nullDeref` marks the undefined
behavior of calling through `_mediaCapture` while it is null
(CaptureEngine.cpp:363 performs no state check before the call); `err` is
an `IFR` early return; `pending` is success with the encoding profile
passed to `StartRecordToCustomSinkAsync`. -/
inductive StartOutcome where
  | nullDeref
  | err (hr : HRes)
  | pending (profile : EncProfile)
deriving DecidableEq, Repr

/-- Apply `f` to the stored media capture, if any. -/
def updateCap (f : MCap → MCap) (s : CaptureState) : CaptureState :=
  { s with mediaCapture := s.mediaCapture.map f }

/-- The `if (enableMrc)` block of `StartAsync`
(CaptureEngine.cpp:416-463): video effect definition and attachment, then
`_videoEffectAdded = true` (441); when audio is enabled, audio effect
definition and attachment, then `_audioEffectAdded = true` (459); finally
`_enableMrc = enableMrc` (462). Returns the state together with the error
of the first failing step, if any. -/
def mrcStage (enableMrc : Bool) (env : StartEnv) (s : CaptureState) :
    CaptureState × Option HRes :=
  if enableMrc = false then (s, none)
  else if env.hrCastCapture4.succeeded = false then
    (s, some env.hrCastCapture4)
  else if env.hrVideoEffectSetup.succeeded = false then
    (s, some env.hrVideoEffectSetup)
  else if env.hrAddVideoEffect.succeeded = false then
    (s, some env.hrAddVideoEffect)
  else if env.hrWaitVideo.succeeded = false then (s, some env.hrWaitVideo)
  else if env.hrVideoResults.succeeded = false then
    (s, some env.hrVideoResults)
  else
    let s1 := { s with videoEffectAdded := true }
    if s1.enableAudio then
      if env.hrAudioEffectSetup.succeeded = false then
        (s1, some env.hrAudioEffectSetup)
      else if env.hrAddAudioEffect.succeeded = false then
        (s1, some env.hrAddAudioEffect)
      else if env.hrWaitAudio.succeeded = false then
        (s1, some env.hrWaitAudio)
      else if env.hrAudioResults.succeeded = false then
        (s1, some env.hrAudioResults)
      else
        ({ s1 with audioEffectAdded := true, enableMrc := true }, none)
    else ({ s1 with enableMrc := true }, none)

/-- `CaptureEngineImpl::StartAsync` (CaptureEngine.cpp:352-505).
`connectionNull` models the `NULL_CHK(connection)` argument check; the
method then calls through `_mediaCapture` with no state check (363), so a
null capture is a null dereference. On the success path the `Failed` and
`RecordLimitationExceeded` handlers are registered (473, 478) before
`StartRecordToCustomSinkAsync` is issued (498); an `IFR` failure after a
registration returns without removing any registration. -/
def startAsync (enableMrc connectionNull : Bool) (env : StartEnv)
    (s : CaptureState) : CaptureState × StartOutcome :=
  if connectionNull then (s, .err .ePointer)
  else
    match s.mediaCapture with
    | none => (s, .nullDeref)
    | some cap =>
      if env.hrGetProps.succeeded = false then (s, .err env.hrGetProps)
      else if env.hrProfileStatics.succeeded = false then
        (s, .err env.hrProfileStatics)
      else if env.hrProfileBuild.succeeded = false then
        (s, .err env.hrProfileBuild)
      else
        let profile : EncProfile :=
          { width := cap.recordWidth, height := cap.recordHeight
          , hasAudio := s.enableAudio, hasContainer := false }
        if env.hrMakeSink.succeeded = false then (s, .err env.hrMakeSink)
        else
          let mrc := mrcStage enableMrc env s
          match mrc.2 with
          | some hr => (mrc.1, .err hr)
          | none =>
            let s1 := mrc.1
            if env.hrSinkCast.succeeded = false then
              (s1, .err env.hrSinkCast)
            else if env.hrAddFailed.succeeded = false then
              (s1, .err env.hrAddFailed)
            else
              let s2 := updateCap
                (fun c => { c with
                  failedHandlerCount := c.failedHandlerCount + 1 }) s1
              if env.hrAddRecordLimit.succeeded = false then
                (s2, .err env.hrAddRecordLimit)
              else
                let s3 := updateCap
                  (fun c => { c with
                    recordLimitHandlerCount :=
                      c.recordLimitHandlerCount + 1 }) s2
                if env.hrMakeAction.succeeded = false then
                  (s3, .err env.hrMakeAction)
                else if env.hrStartRecord.succeeded = false then
                  (s3, .err env.hrStartRecord)
                else if env.hrPutCompleted.succeeded = false then
                  (s3, .err env.hrPutCompleted)
                else (s3, .pending profile)

/-! ## Remaining definitions used by the theorems -/

/-- Single-flight invariant of the log sink: at most one pending
store/flush continuation exists, and whenever one does, the
saving-to-file flag is set and the writer is attached. -/
def flightInvariant (s : LoggerState) : Prop :=
  s.storeOps + s.flushOps ≤ 1 ∧
  (1 ≤ s.storeOps + s.flushOps →
    s.savingToFile = true ∧ s.writerAttached = true)

/-- An `InitEnv` in which every platform step succeeds and the device
reports no video profiles. -/
def initEnvOk : InitEnv :=
  { hrFindVideo := .sOk, hrFindAudio := .sOk, hrSettings := .sOk
  , hrStatics := .sOk, hrProfiles := .sOk, profiles := []
  , hrApplyProfile := .sOk, hrActivate := .sOk, hrInitCall := .sOk
  , hrMakeAction := .sOk, hrPutCompleted := .sOk }

/-- `InitEnv` in which video device resolution fails. -/
def envFindVideoFails : InitEnv := { initEnvOk with hrFindVideo := .eFail 7 }

/-- `StartEnv` in which creating the composed completion action
(`MakeAndInitialize<AsyncCompleteImpl>`, CaptureEngine.cpp:481) fails,
after both event subscriptions succeeded. -/
def envMakeActionFails : StartEnv := { startEnvOk with hrMakeAction := .eFail 5 }

/-- An engine whose `InitAsync` completed: the handler stored a media
capture reporting 1920x1080 with no handlers registered yet. -/
def readyState : CaptureState :=
  { initCaptureState with
      mediaCapture := some
        { recordWidth := 1920, recordHeight := 1080
        , failedHandlerCount := 0, recordLimitHandlerCount := 0 } }

/-- A logger with the writer attached and nothing buffered or in
flight. -/
def attachedLogger : LoggerState := { initLogger with writerAttached := true }

/-- A concrete profile list: the first profile carries a non-matching
640x480 description and a matching 1920x1080@29.97 one; the second
profile carries another matching 1280x720@30 description, which must not
be selected (first-match). -/
def profilesW : List VideoProfile :=
  [ { descs := [ { width := 640, height := 480, frameRateMilli := 30000 }
               , { width := 1920, height := 1080, frameRateMilli := 29970 } ] }
  , { descs := [ { width := 1280, height := 720, frameRateMilli := 30000 } ] } ]

/-- `initEnvOk` with the concrete profile list `profilesW`. -/
def envProfilesW : InitEnv := { initEnvOk with profiles := profilesW }

/-- The settings `InitAsync` builds from `profilesW` with audio
disabled. -/
def settingsW : InitSettings :=
  { audioEnabled := false
  , selectedDesc := some { width := 1920, height := 1080, frameRateMilli := 29970 }
  , selectedProfile := some
      { descs := [ { width := 640, height := 480, frameRateMilli := 30000 }
                 , { width := 1920, height := 1080, frameRateMilli := 29970 } ] } }

/-! ## Helper lemmas -/

theorem HRes.succeeded_iff {h : HRes} : h.succeeded = true ↔ h = .sOk := by
  cases h <;> simp [HRes.succeeded]

theorem writeLoop_clean (ms : List Msg) (rs : List HRes)
    (h : rs.all HRes.succeeded = true) : writeLoop ms rs = (ms, .sOk) := by
  induction ms generalizing rs with
  | nil => rfl
  | cons m ms ih =>
    cases ms with
    | nil =>
      cases rs with
      | nil => rfl
      | cons r rs' =>
        simp only [List.all_cons, Bool.and_eq_true] at h
        simp [writeLoop, HRes.succeeded_iff.mp h.1, HRes.succeeded]
    | cons m' ms' =>
      cases rs with
      | nil =>
        simp [writeLoop, HRes.succeeded, ih [] rfl]
      | cons r rs' =>
        simp only [List.all_cons, Bool.and_eq_true] at h
        simp [writeLoop, HRes.succeeded_iff.mp h.1, HRes.succeeded,
          ih rs' h.2]

/-! ## C1 -/

/-- C1: the claim says `StartAsync` on an engine whose `InitAsync` has not
completed (null media-capture handle) fails with the `InvalidState` error.
The code performs no state check: CaptureEngine.cpp:363 calls
`_mediaCapture->get_VideoDeviceController(...)` through the null pointer,
which is a null dereference (undefined behavior), not an error return.
This theorem evaluates the model at the failing input: the outcome is
`nullDeref` and the engine state is untouched (in particular no effect is
attached and no event subscription is made — that part of the claim's
consequence does hold, vacuously, because execution never gets there). -/
theorem startAsync_uninit_null_deref :
    startAsync false false startEnvOk initCaptureState
      = (initCaptureState, .nullDeref) := by decide

/-! ## C5 -/

/-- C5: the claim says any step failure after an event handler was
registered but before the start call removes every registered
subscription. In the code a failure of
`MakeAndInitialize<AsyncCompleteImpl>` (CaptureEngine.cpp:481) — after
`add_Failed` (473) and `add_RecordLimitationExceeded` (478) both
succeeded — returns through `IFR` with no cleanup: this theorem evaluates
that run and shows both subscriptions are still registered (counts 1)
when `StartAsync` returns the error. -/
theorem startAsync_leaks_subscriptions :
    (startAsync false false envMakeActionFails readyState).2
        = .err (.eFail 5) ∧
    ((startAsync false false envMakeActionFails readyState).1.mediaCapture.map
        MCap.failedHandlerCount) = some 1 ∧
    ((startAsync false false envMakeActionFails readyState).1.mediaCapture.map
        MCap.recordLimitHandlerCount) = some 1 := by decide

/-! ## C9 -/

/-- C9: the claim says `SyncWait` re-waits on an alertable interruption
and returns a timeout error when the timeout elapses. The code
(AsyncOperations.h:219-223) performs a single `WaitForSingleObjectEx` and
treats `WAIT_IO_COMPLETION` like `WAIT_OBJECT_0` (returns `S_OK` without
re-waiting, even though the operation has not completed), and on
`WAIT_TIMEOUT` returns `HRESULT_FROM_WIN32(GetLastError())`, which is
`S_OK` whenever the thread's last-error is 0. This theorem evaluates both
failing inputs. -/
theorem syncwait_no_rewait_and_timeout_success :
    syncWaitBridge .sOk .ioCompletion 0 = .sOk ∧
    syncWaitBridge .sOk .timedOut 0 = .sOk := by decide

/-! ## C10 -/

/-- C10: destroying a still-pending `AsyncCompleteImpl` runs
`Completed(E_UNEXPECTED)` (AsyncOperations.h:35-38), which transitions the
task to the error state (`TryTransitionToError`, 73-76) and fires a
registered completion handler (`FireCompletion`, 78), so no registered
continuation is left without a terminal outcome. -/
theorem dtor_completes_pending (t : AsyncTask) (h : t.state = .started) :
    (destructorRun t).state = .errorState .eUnexpected ∧
    (t.handlerRegistered = true → t.handlerFired = false →
      (destructorRun t).handlerFired = true) := by
  unfold destructorRun completedFn tryTransitionToError fireCompletion
  simp [h, HRes.succeeded]
  constructor
  · split <;> rfl
  · intro hr hf
    simp [hr, hf]

/-- Witness for `dtor_completes_pending` at a concrete pending task with a
registered, unfired handler. -/
theorem dtor_completes_pending_witness :
    (destructorRun ⟨.started, true, false⟩).state
        = .errorState .eUnexpected ∧
    ((true : Bool) = true → (false : Bool) = false →
      (destructorRun ⟨.started, true, false⟩).handlerFired = true) :=
  dtor_completes_pending ⟨.started, true, false⟩ rfl

/-! ## C2 -/

/-- C2 counterexample: with a writer attached and no flush in flight, a
`Log` call whose synchronously started flush hits a failing `WriteBytes`
returns that failure to the caller of `Log` (Logger.cpp:160 returns
`FlushMessageQueue()`, which returns the loop's `hr` at 184-185), so the
write path's failure code does surface. -/
theorem log_surfaces_write_failure :
    (logCall (some 5) [.eFail 3] .sOk .sOk
        (runLogger [.attach [] .sOk .sOk])).2 = .eFail 3 ∧
    (.eFail 3 : HRes) ≠ .sOk := by decide

/-- C2 amended: `Log` returns `E_INVALIDARG` on a null message; it returns
`S_OK` whenever it does not start a flush (no writer attached, or a save
already in flight); when it does start a flush synchronously it returns
that flush's result, which propagates WriteBytes / StoreAsync /
put_Completed failures to the caller. Only failures inside the
asynchronous completion handlers are never surfaced. -/
theorem log_result_amended :
    (∀ wrs st pt s, (logCall none wrs st pt s).2 = .eInvalidArg) ∧
    (∀ s m wrs st pt, s.writerAttached = false ∨ s.savingToFile = true →
        (logCall (some m) wrs st pt s).2 = .sOk) ∧
    (∀ s m wrs st pt, s.writerAttached = true → s.savingToFile = false →
        (logCall (some m) wrs st pt s).2
          = (flushMQ wrs st pt
              { s with logMessages := s.logMessages ++ [m] }).2) := by
  refine ⟨fun wrs st pt s => rfl, ?_, ?_⟩
  · rintro s m wrs st pt (h | h) <;> simp [logCall, h]
  · intro s m wrs st pt h1 h2
    simp [logCall, h1, h2]

/-- Witness for `log_result_amended` at concrete inputs: a null message on
the fresh logger, a message logged before attachment, and a message logged
on an attached idle logger. -/
theorem log_result_amended_witness :
    (logCall none [] .sOk .sOk initLogger).2 = .eInvalidArg ∧
    (logCall (some 5) [] .sOk .sOk initLogger).2 = .sOk ∧
    (logCall (some 5) [.eFail 3] .sOk .sOk attachedLogger).2
      = (flushMQ [.eFail 3] .sOk .sOk
          { attachedLogger with logMessages := attachedLogger.logMessages ++ [5] }).2 :=
  ⟨log_result_amended.1 [] .sOk .sOk initLogger,
   log_result_amended.2.1 initLogger 5 [] .sOk .sOk (Or.inl (by decide)),
   log_result_amended.2.2 attachedLogger 5 [.eFail 3] .sOk .sOk
     (by decide) (by decide)⟩

/-! ## C3 -/

/-- C3 counterexample: messages 1 and 2 are logged with the store
attached; message 1's `WriteBytes` fails. `FlushMessageQueue` had already
swapped the batch out of `m_logMessages` (Logger.cpp:165-166) and the
early return at 184-185 discards the local vector, so message 1 is gone
from every buffer: the store receives only message 2, refuting "each
message is written exactly once, none is dropped (including on a failed
write cycle, whose swapped-out messages must not be discarded)". -/
theorem logger_drops_failed_write :
    accounted (runLogger
      [.attach [] .sOk .sOk,
       .log (some 1) [.eFail 1] .sOk .sOk,
       .log (some 2) [] .sOk .sOk]) = [2] ∧
    logged
      [.attach [] .sOk .sOk,
       .log (some 1) [.eFail 1] .sOk .sOk,
       .log (some 2) [] .sOk .sOk] = [1, 2] ∧
    ([2] : List Msg) ≠ [1, 2] := by decide

/-! ## C7 -/

/-- C7 counterexample: a flush cycle resumed from the durability-sync
completion (`cbFlush`, Logger.cpp:204-212) whose `WriteBytes` fails
returns at 184-185 *without* clearing `m_savingToFile` — the flag was set
by the previous cycle (225) and the only clearing site is the empty-batch
branch (169). The trace below ends with that failing resumed cycle and
the flag still true, refuting "the saving-to-file flag is left cleared
(false), so a subsequent Log call can start a new flush"; the second
conjunct shows a subsequent `Log` call merely appends (no swap happens,
so no new flush starts). -/
theorem flush_failure_leaves_flag_set :
    (runLogger
      [.attach [] .sOk .sOk,
       .log (some 1) [] .sOk .sOk,
       .storeDone .sOk .sOk .sOk,
       .log (some 2) [] .sOk .sOk,
       .flushDone [.eFail 1] .sOk .sOk]).savingToFile = true ∧
    (logCall (some 3) [] .sOk .sOk
      (runLogger
        [.attach [] .sOk .sOk,
         .log (some 1) [] .sOk .sOk,
         .storeDone .sOk .sOk .sOk,
         .log (some 2) [] .sOk .sOk,
         .flushDone [.eFail 1] .sOk .sOk])).1.logMessages = [3] := by
  decide

/-- C7 amended: a failing `WriteBytes` (the loop's final `hr`) or a
failing `StoreAsync` issue aborts the flush cycle with the saving-to-file
flag left *unchanged*, not cleared — so when the failure happens in a
cycle resumed from a completion (flag already true) the flag stays true
and a subsequent `Log` call only appends, never starting a new flush; the
abort surfaces no error to the host when it happens inside a completion
handler (the handler's return value is discarded), while a synchronously
started flush returns the error to `Log`'s caller. -/
theorem flush_failure_amended :
    (∀ s wrs st pt, (writeLoop s.logMessages wrs).2.succeeded = false →
        (flushMQ wrs st pt s).1.savingToFile = s.savingToFile ∧
        (flushMQ wrs st pt s).2 = (writeLoop s.logMessages wrs).2) ∧
    (∀ s wrs st pt, s.logMessages ≠ [] →
        (writeLoop s.logMessages wrs).2.succeeded = true →
        st.succeeded = false →
        (flushMQ wrs st pt s).1.savingToFile = s.savingToFile ∧
        (flushMQ wrs st pt s).2 = st) ∧
    (∀ s m wrs st pt, s.savingToFile = true →
        (logCall (some m) wrs st pt s).1
            = { s with logMessages := s.logMessages ++ [m] } ∧
        (logCall (some m) wrs st pt s).2 = .sOk) := by
  refine ⟨?_, ?_, ?_⟩
  · intro s wrs st pt hfail
    have hne : s.logMessages.isEmpty = false := by
      cases h : s.logMessages with
      | nil => rw [h] at hfail; simp [writeLoop, HRes.succeeded] at hfail
      | cons a l => rfl
    simp [flushMQ, hne, hfail]
  · intro s wrs st pt hne hok hst
    have hne' : s.logMessages.isEmpty = false := by
      cases h : s.logMessages with
      | nil => exact absurd h hne
      | cons a l => rfl
    simp [flushMQ, hne', hok, hst]
  · intro s m wrs st pt hsave
    simp [logCall, hsave]

/-- Witness for `flush_failure_amended`: a failing `WriteBytes` on a
one-message batch, a failing `StoreAsync` issue on the same batch, and a
`Log` call during an in-flight save. -/
theorem flush_failure_amended_witness :
    ((flushMQ [.eFail 1] .sOk .sOk
        { attachedLogger with logMessages := [4] }).1.savingToFile
      = ({ attachedLogger with logMessages := [4] } : LoggerState).savingToFile ∧
     (flushMQ [.eFail 1] .sOk .sOk
        { attachedLogger with logMessages := [4] }).2
      = (writeLoop ({ attachedLogger with logMessages := [4] } : LoggerState).logMessages [.eFail 1]).2) ∧
    ((flushMQ [] (.eFail 2) .sOk
        { attachedLogger with logMessages := [4] }).1.savingToFile
      = ({ attachedLogger with logMessages := [4] } : LoggerState).savingToFile ∧
     (flushMQ [] (.eFail 2) .sOk
        { attachedLogger with logMessages := [4] }).2 = .eFail 2) ∧
    ((logCall (some 6) [] .sOk .sOk
        { attachedLogger with savingToFile := true }).1
      = { ({ attachedLogger with savingToFile := true } : LoggerState) with
            logMessages :=
              ({ attachedLogger with savingToFile := true } : LoggerState).logMessages ++ [6] } ∧
     (logCall (some 6) [] .sOk .sOk
        { attachedLogger with savingToFile := true }).2 = .sOk) :=
  ⟨flush_failure_amended.1 { attachedLogger with logMessages := [4] }
      [.eFail 1] .sOk .sOk (by decide),
   flush_failure_amended.2.1 { attachedLogger with logMessages := [4] }
      [] (.eFail 2) .sOk (by decide) (by decide) (by decide),
   flush_failure_amended.2.2 { attachedLogger with savingToFile := true }
      6 [] .sOk .sOk (by decide)⟩

/-! ## C4 -/

/-- C4 counterexample: when video-device resolution fails, `InitAsync`
returns the originating error through `IFR` (CaptureEngine.cpp:221-223)
— no composed task is produced (`*action` is never written), so no task
"terminates with the originating error"; and the initialized flag is not
an uninitialized value: the constructor sets `_isInitialized(true)`
(CaptureEngine.cpp:46), so `get_IsInitialized` reports `true` before,
during and after the failed call. The part of the claim that does hold is
that no media-capture handle is stored. -/
theorem init_failure_no_task_and_flag_true :
    (initAsync false envFindVideoFails initCaptureState).2
        = .syncErr (.eFail 7) ∧
    (initAsync false envFindVideoFails initCaptureState).1.isInitialized
        = true ∧
    (initAsync false envFindVideoFails initCaptureState).1.mediaCapture
        = none := by decide

/-- C4 amended: the synchronous part of `InitAsync` changes nothing but
`_enableAudio` (216) — in particular `_isInitialized` and `_mediaCapture`
are untouched on every path; every `IFR` early return carries a failing
`HRes`, and the first failing step's error is the one returned (shown for
the first step, video-device resolution); a failure inside the
initialize-completion handler leaves the state unchanged (no handle
stored), signals the composed action with the first failing step's error,
and `Completed` on a pending task with a failing code moves it to the
error state. -/
theorem init_fail_amended :
    (∀ b env s, (initAsync b env s).1 = { s with enableAudio := b }) ∧
    (∀ b env s hr, (initAsync b env s).2 = .syncErr hr →
        hr.succeeded = false) ∧
    (∀ b env s, env.hrFindVideo.succeeded = false →
        (initAsync b env s).2 = .syncErr env.hrFindVideo) ∧
    (∀ henv s, (initHandlerRun henv s).2.succeeded = false →
        (initHandlerRun henv s).1 = s) ∧
    (∀ henv s, (initHandlerRun henv s).2
        = (if henv.hrController.succeeded = false then henv.hrController
           else if henv.hrStore.succeeded = false then henv.hrStore
           else .sOk)) ∧
    (∀ (t : AsyncTask) hr, t.state = .started → hr.succeeded = false →
        (completedFn hr t).state = .errorState hr) := by
  refine ⟨?_, ?_, ?_, ?_, ?_, ?_⟩
  · intro b env s
    rfl
  · intro b env s hr h
    simp only [initAsync, initAsyncOutcome] at h
    repeat' split at h
    all_goals simp_all
  · intro b env s h
    simp only [initAsync, initAsyncOutcome, h, if_pos]
  · intro henv s h
    simp only [initHandlerRun] at h ⊢
    repeat' split at h
    all_goals simp_all [HRes.succeeded]
  · intro henv s
    simp only [initHandlerRun]
    repeat' split
    all_goals rfl
  · intro t hr ht hhr
    unfold completedFn tryTransitionToError fireCompletion
    simp [ht, hhr]
    split <;> rfl

/-- Witness for `init_fail_amended` at concrete inputs: the failing
device-resolution environment, a handler whose controller chain fails,
and a pending task completed with that error. -/
theorem init_fail_amended_witness :
    (initAsync false envFindVideoFails initCaptureState).1
        = { initCaptureState with enableAudio := false } ∧
    (HRes.eFail 7).succeeded = false ∧
    (initAsync false envFindVideoFails initCaptureState).2
        = .syncErr envFindVideoFails.hrFindVideo ∧
    (initHandlerRun ⟨.eFail 9, .sOk, 1920, 1080⟩ initCaptureState).1
        = initCaptureState ∧
    (initHandlerRun ⟨.eFail 9, .sOk, 1920, 1080⟩ initCaptureState).2
        = (if (HRes.eFail 9).succeeded = false then .eFail 9
           else if HRes.sOk.succeeded = false then .sOk else .sOk) ∧
    (completedFn (.eFail 9) ⟨.started, true, false⟩).state
        = .errorState (.eFail 9) :=
  ⟨init_fail_amended.1 false envFindVideoFails initCaptureState,
   init_fail_amended.2.1 false envFindVideoFails initCaptureState
     (.eFail 7) (by decide),
   init_fail_amended.2.2.1 false envFindVideoFails initCaptureState
     (by decide),
   init_fail_amended.2.2.2.1 ⟨.eFail 9, .sOk, 1920, 1080⟩ initCaptureState
     (by decide),
   init_fail_amended.2.2.2.2.1 ⟨.eFail 9, .sOk, 1920, 1080⟩ initCaptureState,
   init_fail_amended.2.2.2.2.2 ⟨.started, true, false⟩ (.eFail 9)
     rfl (by decide)⟩

/-! ## C8 -/

theorem descs_foldl_keep_some (p : VideoProfile) (l : List MediaDesc)
    (x : VideoProfile × MediaDesc) :
    l.foldl
      (fun a d =>
        match a with
        | some y => some y
        | none => if descMatches d then some (p, d) else none)
      (some x) = some x := by
  induction l with
  | nil => rfl
  | cons d l ih => simpa using ih

theorem descs_foldl_none (p : VideoProfile) (l : List MediaDesc) :
    l.foldl
      (fun a d =>
        match a with
        | some y => some y
        | none => if descMatches d then some (p, d) else none)
      none = (l.find? descMatches).map (fun d => (p, d)) := by
  induction l with
  | nil => rfl
  | cons d l ih =>
    simp only [List.foldl_cons]
    cases hd : descMatches d with
    | true =>
      simp [hd, List.find?_cons_of_pos, descs_foldl_keep_some]
    | false =>
      simpa [hd, List.find?_cons_of_neg] using ih

theorem selectProfile_foldl (ps : List VideoProfile)
    (acc : Option (VideoProfile × MediaDesc)) :
    ps.foldl (fun a p => selectDescs p a) acc
      = acc.or ((ps.flatMap fun p => p.descs.map fun d => (p, d)).find?
          fun pd => descMatches pd.2) := by
  induction ps generalizing acc with
  | nil => cases acc <;> rfl
  | cons p ps ih =>
    have hcomp : ((fun pd : VideoProfile × MediaDesc => descMatches pd.2)
        ∘ fun d => (p, d)) = descMatches := rfl
    simp only [List.foldl_cons, List.flatMap_cons, List.find?_append,
      List.find?_map, hcomp]
    cases acc with
    | some x =>
      rw [show selectDescs p (some x) = some x from
        descs_foldl_keep_some p p.descs x, ih]
      rfl
    | none =>
      rw [show selectDescs p none
            = (p.descs.find? descMatches).map (fun d => (p, d)) from
          descs_foldl_none p p.descs, ih]
      cases p.descs.find? descMatches <;> rfl

/-- C8: the profile/description double loop of `InitAsync`
(CaptureEngine.cpp:262-297) selects exactly the first description in
enumeration order (outer loop over profiles, inner over their supported
record media descriptions) whose width is >= 1280, height >= 720 and
whose frame rate rounds to 30 (`descMatches`), together with its profile
— descriptions after the first match are never selected (the
`captureProfileFound` guard) — and on the success path the selected
description and profile are exactly the ones applied to the
initialization settings. -/
theorem profile_first_match :
    (∀ ps : List VideoProfile,
        selectProfile ps
          = ((ps.flatMap fun p => p.descs.map fun d => (p, d)).find?
              fun pd => descMatches pd.2)) ∧
    (∀ b env s settings,
        (initAsync b env s).2 = .pending settings →
        settings.selectedDesc = (selectProfile env.profiles).map Prod.snd ∧
        settings.selectedProfile
          = (selectProfile env.profiles).map Prod.fst) := by
  constructor
  · intro ps
    have h := selectProfile_foldl ps none
    simpa [selectProfile] using h
  · intro b env s settings h
    simp only [initAsync, initAsyncOutcome] at h
    repeat' split at h
    all_goals
      first
        | (injection h with h2; subst h2; exact ⟨rfl, rfl⟩)
        | exact absurd h (by simp)

/-- Witness for `profile_first_match` on the concrete list `profilesW`:
the 1920x1080@29.97 description of the first profile is selected (not the
later 1280x720@30 one) and lands in the settings. -/
theorem profile_first_match_witness :
    (selectProfile profilesW
      = ((profilesW.flatMap fun p => p.descs.map fun d => (p, d)).find?
          fun pd => descMatches pd.2)) ∧
    (settingsW.selectedDesc = (selectProfile profilesW).map Prod.snd ∧
     settingsW.selectedProfile = (selectProfile profilesW).map Prod.fst) :=
  ⟨profile_first_match.1 profilesW,
   profile_first_match.2 false envProfilesW initCaptureState settingsW
     (by decide)⟩

/-! ## C3 (amended), supporting lemmas -/

theorem flushMQ_clean_accounted (s : LoggerState) (wrs : List HRes)
    (st pt : HRes) (hw : wrs.all HRes.succeeded = true)
    (hst : st.succeeded = true) (hpt : pt.succeeded = true) :
    accounted (flushMQ wrs st pt s).1 = accounted s := by
  have hst' : st = .sOk := HRes.succeeded_iff.mp hst
  have hpt' : pt = .sOk := HRes.succeeded_iff.mp hpt
  subst hst' hpt'
  cases hml : s.logMessages with
  | nil => simp [flushMQ, hml, accounted]
  | cons a l =>
    have hwl := writeLoop_clean (a :: l) wrs hw
    simp [flushMQ, hml, hwl, HRes.succeeded, accounted, List.append_assoc]

theorem stepEv_clean_accounted (e : Ev) (s : LoggerState)
    (hc : e.clean = true) :
    accounted (stepEv e s) = accounted s ++ loggedOf e := by
  cases e with
  | log m wrs st pt =>
    cases m with
    | none => simp [Ev.clean] at hc
    | some mm =>
      simp only [Ev.clean, Bool.and_eq_true] at hc
      obtain ⟨⟨⟨-, hw⟩, hst⟩, hpt⟩ := hc
      simp only [stepEv, logCall, loggedOf]
      split
      · simp [accounted, List.append_assoc]
      · rw [flushMQ_clean_accounted _ _ _ _ hw hst hpt]
        simp [accounted, List.append_assoc]
  | attach wrs st pt =>
    simp only [Ev.clean, Bool.and_eq_true] at hc
    obtain ⟨⟨hw, hst⟩, hpt⟩ := hc
    simp only [stepEv, loggedOf]
    split
    · simp
    · show accounted (flushMQ wrs st pt _).1 = _
      rw [flushMQ_clean_accounted _ _ _ _ hw hst hpt]
      simp [accounted]
  | storeDone g f pt =>
    simp only [stepEv, loggedOf, storeComplete]
    split
    · simp
    · split <;> simp [accounted]
  | flushDone wrs st pt =>
    simp only [Ev.clean, Bool.and_eq_true] at hc
    obtain ⟨⟨hw, hst⟩, hpt⟩ := hc
    simp only [stepEv, loggedOf, flushComplete]
    split
    · simp
    · rw [flushMQ_clean_accounted _ _ _ _ hw hst hpt]
      simp [accounted]

theorem runFrom_clean_accounted (tr : List Ev) (s : LoggerState)
    (h : ∀ e ∈ tr, e.clean = true) :
    accounted (runFrom s tr) = accounted s ++ logged tr := by
  induction tr generalizing s with
  | nil => simp [runFrom, logged]
  | cons e tr ih =>
    simp only [runFrom, logged]
    rw [ih (stepEv e s) (fun x hx => h x (List.mem_cons_of_mem e hx)),
      stepEv_clean_accounted e s (h e (List.mem_cons_self e tr))]
    simp [List.append_assoc]

/-- C3 amended: over any interleaving of `Log` calls, writer attachment
and store/flush completions in which every involved platform step
succeeds, the bytes handed to the backing store, followed by the bytes
still buffered in the writer and the still-pending messages, are exactly
the logged messages in append order — nothing lost, duplicated or
reordered. (The unamended claim is false: a failing `WriteBytes`
permanently drops the swapped-out message, see the counterexample.) -/
theorem log_accounting (tr : List Ev) (h : ∀ e ∈ tr, e.clean = true) :
    accounted (runLogger tr) = logged tr := by
  have hrun := runFrom_clean_accounted tr initLogger h
  simpa [runLogger, accounted, initLogger] using hrun

/-- Witness for `log_accounting` on a five-event clean trace: a message
logged before attachment, the attachment flush, a message logged during
the in-flight save, and the store/flush completions that drain it. -/
theorem log_accounting_witness :
    accounted (runLogger
      [.log (some 1) [] .sOk .sOk,
       .attach [] .sOk .sOk,
       .log (some 2) [] .sOk .sOk,
       .storeDone .sOk .sOk .sOk,
       .flushDone [] .sOk .sOk])
      = logged
      [.log (some 1) [] .sOk .sOk,
       .attach [] .sOk .sOk,
       .log (some 2) [] .sOk .sOk,
       .storeDone .sOk .sOk .sOk,
       .flushDone [] .sOk .sOk] :=
  log_accounting
    [.log (some 1) [] .sOk .sOk,
     .attach [] .sOk .sOk,
     .log (some 2) [] .sOk .sOk,
     .storeDone .sOk .sOk .sOk,
     .flushDone [] .sOk .sOk] (by decide)

/-! ## C6 -/

theorem flushMQ_flight (s : LoggerState) (wrs : List HRes) (st pt : HRes)
    (h0 : s.storeOps = 0) (h1 : s.flushOps = 0)
    (hw : s.writerAttached = true) :
    flightInvariant (flushMQ wrs st pt s).1 := by
  simp only [flushMQ]
  repeat' split
  all_goals simp_all [flightInvariant]

theorem stepEv_flight (e : Ev) (s : LoggerState) (h : flightInvariant s) :
    flightInvariant (stepEv e s) := by
  obtain ⟨hle, himp⟩ := h
  cases e with
  | log m wrs st pt =>
    cases m with
    | none => exact ⟨hle, himp⟩
    | some mm =>
      simp only [stepEv, logCall]
      split
      · exact ⟨hle, himp⟩
      · rename_i hcond
        simp only [Bool.or_eq_true, decide_eq_true_eq, not_or] at hcond
        have hsave : s.savingToFile = false := by
          cases hsv : s.savingToFile with
          | false => rfl
          | true => exact absurd hsv hcond.2
        have hatt : s.writerAttached = true := by
          cases hat : s.writerAttached with
          | false => exact absurd hat hcond.1
          | true => rfl
        have hsum : s.storeOps + s.flushOps = 0 := by
          by_contra hne
          have hge : 1 ≤ s.storeOps + s.flushOps :=
            Nat.one_le_iff_ne_zero.mpr hne
          have := (himp hge).1
          simp_all
        exact flushMQ_flight _ wrs st pt
          (show s.storeOps = 0 by omega) (show s.flushOps = 0 by omega) hatt
  | attach wrs st pt =>
    simp only [stepEv]
    split
    · exact ⟨hle, himp⟩
    · rename_i hatt
      have hsum : s.storeOps + s.flushOps = 0 := by
        by_contra hne
        have hge : 1 ≤ s.storeOps + s.flushOps :=
          Nat.one_le_iff_ne_zero.mpr hne
        exact hatt ((himp hge).2 ▸ rfl)
      exact flushMQ_flight _ wrs st pt
        (show s.storeOps = 0 by omega) (show s.flushOps = 0 by omega) rfl
  | storeDone g f pt =>
    simp only [stepEv, storeComplete]
    split
    · exact ⟨hle, himp⟩
    · rename_i hs0
      have hs1 : 1 ≤ s.storeOps := Nat.one_le_iff_ne_zero.mpr hs0
      split
      · exact ⟨show s.storeOps - 1 + (s.flushOps + 1) ≤ 1 by omega,
          fun _ => himp (by omega)⟩
      · exact ⟨show s.storeOps - 1 + s.flushOps ≤ 1 by omega,
          fun _ => himp (by omega)⟩
  | flushDone wrs st pt =>
    simp only [stepEv, flushComplete]
    split
    · exact ⟨hle, himp⟩
    · rename_i hf0
      have hf1 : 1 ≤ s.flushOps := Nat.one_le_iff_ne_zero.mpr hf0
      have hatt : s.writerAttached = true := (himp (by omega)).2
      exact flushMQ_flight _ wrs st pt
        (show s.storeOps = 0 by omega) (show s.flushOps - 1 = 0 by omega)
        hatt

theorem runFrom_flight (tr : List Ev) (s : LoggerState)
    (h : flightInvariant s) : flightInvariant (runFrom s tr) := by
  induction tr generalizing s with
  | nil => exact h
  | cons e tr ih => exact ih (stepEv e s) (stepEv_flight e s h)

/-- C6: in every reachable logger state at most one flush continuation is
pending (`flightInvariant`: the pending store/flush handler count is at
most one, and any pending handler implies the saving-to-file flag is set
and the writer attached); `Log` starts a flush only when the flag is
false and a writer is attached — when the flag is set, or no writer is
attached, it only appends the message and returns `S_OK` (Logger.cpp:155-
158); and a flush cycle's swap picks up the entire pending buffer
(165-166): the buffer is empty afterwards, and on a clean cycle the whole
swapped batch is handed on to the store behind the writer buffer. -/
theorem logger_single_flight :
    (∀ tr, flightInvariant (runLogger tr)) ∧
    (∀ s m wrs st pt, s.savingToFile = true →
        logCall (some m) wrs st pt s
          = ({ s with logMessages := s.logMessages ++ [m] }, .sOk)) ∧
    (∀ s m wrs st pt, s.writerAttached = false →
        logCall (some m) wrs st pt s
          = ({ s with logMessages := s.logMessages ++ [m] }, .sOk)) ∧
    (∀ s wrs st pt, (flushMQ wrs st pt s).1.logMessages = []) ∧
    (∀ s wrs st pt, s.logMessages ≠ [] →
        wrs.all HRes.succeeded = true → st.succeeded = true →
        pt.succeeded = true →
        (flushMQ wrs st pt s).1.stored
          = s.stored ++ s.writerBuf ++ s.logMessages) := by
  refine ⟨?_, ?_, ?_, ?_, ?_⟩
  · intro tr
    have hinit : flightInvariant initLogger := by
      constructor
      · decide
      · intro hge
        exact absurd hge (by decide)
    exact runFrom_flight tr initLogger hinit
  · intro s m wrs st pt hs
    simp [logCall, hs]
  · intro s m wrs st pt hs
    simp [logCall, hs]
  · intro s wrs st pt
    simp only [flushMQ]
    repeat' split
    all_goals rfl
  · intro s wrs st pt hne hw hst hpt
    have hst' : st = .sOk := HRes.succeeded_iff.mp hst
    have hpt' : pt = .sOk := HRes.succeeded_iff.mp hpt
    subst hst' hpt'
    cases hml : s.logMessages with
    | nil => exact absurd hml hne
    | cons a l =>
      have hwl := writeLoop_clean (a :: l) wrs hw
      simp [flushMQ, hml, hwl, HRes.succeeded, List.append_assoc]

/-- Witness for `logger_single_flight` at concrete inputs: an empty
trace; a `Log` during an in-flight save; a `Log` before attachment; a
flush of a singleton batch. -/
theorem logger_single_flight_witness :
    flightInvariant (runLogger []) ∧
    logCall (some 7) [] .sOk .sOk { attachedLogger with savingToFile := true }
      = ({ ({ attachedLogger with savingToFile := true } : LoggerState) with
            logMessages :=
              ({ attachedLogger with savingToFile := true } : LoggerState).logMessages
                ++ [7] }, .sOk) ∧
    logCall (some 7) [] .sOk .sOk initLogger
      = ({ initLogger with
            logMessages := initLogger.logMessages ++ [7] }, .sOk) ∧
    (flushMQ [] .sOk .sOk
      { attachedLogger with logMessages := [4] }).1.logMessages = [] ∧
    (flushMQ [] .sOk .sOk
      { attachedLogger with logMessages := [4] }).1.stored
      = ({ attachedLogger with logMessages := [4] } : LoggerState).stored
        ++ ({ attachedLogger with logMessages := [4] } : LoggerState).writerBuf
        ++ ({ attachedLogger with logMessages := [4] } : LoggerState).logMessages :=
  ⟨logger_single_flight.1 [],
   logger_single_flight.2.1 { attachedLogger with savingToFile := true }
     7 [] .sOk .sOk (by decide),
   logger_single_flight.2.2.1 initLogger 7 [] .sOk .sOk (by decide),
   logger_single_flight.2.2.2.1 { attachedLogger with logMessages := [4] }
     [] .sOk .sOk,
   logger_single_flight.2.2.2.2 { attachedLogger with logMessages := [4] }
     [] .sOk .sOk (by decide) (by decide) (by decide) (by decide)⟩
